import Mathlib

/-!
Shallow embedding of `mongoengine/reconnect_proxy.py`: the
`safe_mongocall` retry decorator, the `get_methods` operation
classifier, the `Executable` wrapper and the `ReconnectProxy` class.

A call to an underlying operation is modelled as a function from the
attempt index (how many times it has already been invoked in the
current retry loop) to an outcome, which captures stateful Python
callables that fail some number of times and then succeed.
-/

namespace MongoReconnect

/-- The error taxonomy seen by the retry loop: `pymongo.errors.AutoReconnect`
is the designated transient kind; every other exception is `other`. -/
inductive Err (ε : Type) where
  | autoReconnect : Err ε
  | other : ε → Err ε
deriving DecidableEq

/-- Outcome of one invocation of an underlying operation: a normal
return value or a raised exception. -/
inductive Res (α ε : Type) where
  | ok : α → Res α ε
  | err : Err ε → Res α ε
deriving DecidableEq

/-- Observable trace of running a call through the retry machinery:
the final outcome, the attempt indices at which the underlying call was
actually invoked (in order), the attempt numbers logged as warnings by
`logger.warning` (in order), and the durations passed to `time.sleep`
(in order). -/
structure CallTrace (α ε : Type) where
  result : Res α ε
  attempts : List Nat
  warnings : List Nat
  sleeps : List Nat
deriving DecidableEq

/-- The loop body of `_safe_mongocall`.  `i` is the current attempt
index and `fuel` the number of loop iterations left in `for i in range(4)`
(invariant: `i + fuel = 4`).  When `fuel = 0` the `for` loop is over and
the code makes one last call whose outcome, success or any exception,
is returned unchanged with no logging and no sleeping.  Inside the loop
a success returns immediately, an `AutoReconnect` logs the attempt
number, sleeps `pow(2, i)` and continues, and any other exception
propagates at once. -/
def safeLoop (call : Nat → Res α ε) : Nat → Nat → CallTrace α ε
  | i, 0 => ⟨call i, [i], [], []⟩
  | i, fuel + 1 =>
    match call i with
    | .ok a => ⟨.ok a, [i], [], []⟩
    | .err .autoReconnect =>
      let t := safeLoop call (i + 1) fuel
      ⟨t.result, i :: t.attempts, i :: t.warnings, 2 ^ i :: t.sleeps⟩
    | .err (.other e) => ⟨.err (.other e), [i], [], []⟩

/-- `safe_mongocall(call)` applied to some arguments: run the
`for i in range(4)` retry loop and then the final unguarded call. -/
def safe_mongocall (call : Nat → Res α ε) : CallTrace α ε :=
  safeLoop call 0 4

end MongoReconnect

namespace MongoReconnect

/-- Claim C1: an operation that raises `AutoReconnect` on every attempt is
invoked 5 times in total (attempts 0..4); the four failures inside the loop
each log a warning naming the attempt number and sleep `2^0, 2^1, 2^2, 2^3`,
and the final, undelayed attempt propagates the `AutoReconnect` error
unchanged with no further warning and no further sleep. -/
theorem C1_retry_exhaustion (call : Nat → Res α ε)
    (h : ∀ i, call i = .err .autoReconnect) :
    safe_mongocall call =
      ⟨.err .autoReconnect, [0, 1, 2, 3, 4], [0, 1, 2, 3], [1, 2, 4, 8]⟩ := by
  simp [safe_mongocall, safeLoop, h]

/-- A concrete operation failing with `AutoReconnect` forever. -/
def alwaysReconnect : Nat → Res Nat Unit := fun _ => .err .autoReconnect

theorem C1_retry_exhaustion_witness :
    safe_mongocall alwaysReconnect =
      ⟨.err .autoReconnect, [0, 1, 2, 3, 4], [0, 1, 2, 3], [1, 2, 4, 8]⟩ :=
  C1_retry_exhaustion alwaysReconnect fun _ => rfl

/-- Claim C2: an operation that raises `AutoReconnect` on attempts
`0..k-1` (with `k ≤ 3`) and succeeds on attempt `k` returns the success
value through the retry wrapper; exactly `k` warnings are logged, one per
failed attempt and naming it, and exactly `k` sleeps happen with durations
`2^0, ..., 2^(k-1)` in order.  For `k = 0` there is a single attempt, no
warning and no sleep. -/
theorem C2_retry_success (call : Nat → Res α ε) (k : Nat) (hk : k ≤ 3) (a : α)
    (hfail : ∀ i < k, call i = .err .autoReconnect) (hok : call k = .ok a) :
    safe_mongocall call =
      ⟨.ok a, List.range (k + 1), List.range k,
        (List.range k).map fun i => 2 ^ i⟩ := by
  interval_cases k
  · simp [safe_mongocall, safeLoop, hok, List.range_succ]
  · have h0 := hfail 0 (by norm_num)
    simp [safe_mongocall, safeLoop, h0, hok, List.range_succ]
  · have h0 := hfail 0 (by norm_num)
    have h1 := hfail 1 (by norm_num)
    simp [safe_mongocall, safeLoop, h0, h1, hok, List.range_succ]
  · have h0 := hfail 0 (by norm_num)
    have h1 := hfail 1 (by norm_num)
    have h2 := hfail 2 (by norm_num)
    simp [safe_mongocall, safeLoop, h0, h1, h2, hok, List.range_succ]

/-- A concrete operation failing with `AutoReconnect` twice, then
returning 7. -/
def failTwice : Nat → Res Nat Unit :=
  fun i => if i < 2 then .err .autoReconnect else .ok 7

theorem C2_retry_success_witness :
    safe_mongocall failTwice =
      ⟨.ok 7, List.range 3, List.range 2, (List.range 2).map fun i => 2 ^ i⟩ :=
  C2_retry_success failTwice 2 (by norm_num) 7
    (fun i hi => by interval_cases i <;> rfl) rfl

/-- Claim C3: if the operation raises `AutoReconnect` on attempts
`0..j-1` and any non-transient error on attempt `j` (any `j ≤ 4`), the
wrapper propagates that error at once and unmodified: the trace stops at
attempt `j`, and the warnings and sleeps are exactly those of the earlier
transient failures, with no warning and no sleep for the non-transient
error itself; in particular `j = 0` gives no retry, no delay and no log. -/
theorem C3_nontransient_immediate (call : Nat → Res α ε) (j : Nat) (hj : j ≤ 4)
    (e : ε) (hfail : ∀ i < j, call i = .err .autoReconnect)
    (herr : call j = .err (.other e)) :
    safe_mongocall call =
      ⟨.err (.other e), List.range (j + 1), List.range j,
        (List.range j).map fun i => 2 ^ i⟩ := by
  interval_cases j
  · simp [safe_mongocall, safeLoop, herr, List.range_succ]
  · have h0 := hfail 0 (by norm_num)
    simp [safe_mongocall, safeLoop, h0, herr, List.range_succ]
  · have h0 := hfail 0 (by norm_num)
    have h1 := hfail 1 (by norm_num)
    simp [safe_mongocall, safeLoop, h0, h1, herr, List.range_succ]
  · have h0 := hfail 0 (by norm_num)
    have h1 := hfail 1 (by norm_num)
    have h2 := hfail 2 (by norm_num)
    simp [safe_mongocall, safeLoop, h0, h1, h2, herr, List.range_succ]
  · have h0 := hfail 0 (by norm_num)
    have h1 := hfail 1 (by norm_num)
    have h2 := hfail 2 (by norm_num)
    have h3 := hfail 3 (by norm_num)
    simp [safe_mongocall, safeLoop, h0, h1, h2, h3, herr, List.range_succ]

/-- A concrete operation raising a non-transient error on its first
attempt. -/
def otherAtOnce : Nat → Res Nat Unit := fun _ => .err (.other ())

theorem C3_nontransient_immediate_witness :
    safe_mongocall otherAtOnce =
      ⟨.err (.other ()), List.range 1, List.range 0,
        (List.range 0).map fun i => 2 ^ i⟩ :=
  C3_nontransient_immediate otherAtOnce 0 (by norm_num) ()
    (fun i hi => absurd hi (by omega)) rfl

/-- A Python value as the proxy sees it: either a plain, non-invocable
attribute value, or an invocable whose behaviour on successive
invocations of one retry loop is given by the attempt index. -/
inductive PyVal (α ε : Type) where
  | base : α → PyVal α ε
  | callable : (Nat → Res α ε) → PyVal α ε

/-- `hasattr(v, '__call__')`. -/
def isCallable : PyVal α ε → Bool
  | .base _ => false
  | .callable _ => true

/-- An underlying pymongo-style object `U` as consumed by the proxy: its
named attributes (`getattr`), its subscriptable items (`U[key]`), its own
`__call__` behaviour on given arguments, and its own truthiness. -/
structure Conn (γ α ε : Type) where
  attrs : List (String × PyVal α ε)
  items : List (String × PyVal α ε)
  callF : γ → Res α ε
  truthy : Bool

/-- `attr.startswith('_')` as used in the source, whose pattern is the
single character underscore: whether the first character of the name is
the private marker. -/
def startswith_underscore (s : String) : Bool :=
  match s.data with
  | [] => false
  | c :: _ => c == '_'

/-- `get_methods(*objs)`: the set of names `attr` appearing in `dir(obj)`
for some `obj`, that do not start with an underscore and whose value
`getattr(obj, attr)` is invocable.  A root object is modelled as its
attribute listing; `dir` is the name column and `getattr` the lookup.
The Python `set` is modelled as a duplicate-free list. -/
def get_methods (objs : List (List (String × PyVal α ε))) : List String :=
  (objs.flatMap fun obj =>
    (obj.map Prod.fst).filter fun attr =>
      !startswith_underscore attr &&
        (match List.lookup attr obj with
         | some v => isCallable v
         | none => false)).dedup

/-- `EXECUTABLE_MONGO_METHODS` is `get_methods` applied to the pymongo
root types `Collection`, `Connection` and the `pymongo` module; those
types live outside this repository, so theorems about the proxy take the
Operation Set as a parameter named `methods`. -/
def EXECUTABLE_MONGO_METHODS (pymongoRoots : List (List (String × PyVal α ε))) :
    List String :=
  get_methods pymongoRoots

/-- `Executable`: wraps one bound MongoDB method; its `__call__` is
decorated with `safe_mongocall`. -/
structure Executable (α ε : Type) where
  method : Nat → Res α ε

/-- Invoking an `Executable`: `safe_mongocall` around the bound method. -/
def Executable.call (e : Executable α ε) : CallTrace α ε :=
  safe_mongocall e.method

/-- Outcome of `ReconnectProxy.__getattr__`: the attribute wrapped in an
`Executable`, or the attribute passed through unchanged. -/
inductive AttrResult (α ε : Type) where
  | wrapped : Executable α ε → AttrResult α ε
  | raw : PyVal α ε → AttrResult α ε

/-- `ReconnectProxy.__getattr__(self, key)`: `getattr(self.conn, key)`;
if the result is invocable and `key` is in the Operation Set, wrap it in
an `Executable`, otherwise return it unchanged.  `none` models the
`AttributeError` that `getattr` raises when `U` has no such member. -/
def ReconnectProxy.getattr (methods : List String) (conn : Conn γ α ε)
    (key : String) : Option (AttrResult α ε) :=
  match List.lookup key conn.attrs with
  | none => none
  | some (.callable f) =>
    if methods.contains key then some (.wrapped ⟨f⟩)
    else some (.raw (.callable f))
  | some (.base v) => some (.raw (.base v))

/-- The global names the module `reconnect_proxy` actually defines
(imports, module globals, the decorator and the two classes).  The name
`MongoProxy`, which `__getitem__` applies, is not among them. -/
def module_globals : List String :=
  ["time", "pymongo", "logging", "logger", "get_methods",
   "EXECUTABLE_MONGO_METHODS", "safe_mongocall", "Executable",
   "ReconnectProxy"]

/-- Outcome of `ReconnectProxy.__getitem__`: a `NameError` on an
unresolvable global name, a freshly wrapped proxy, or the item passed
through unchanged. -/
inductive ItemResult (α ε : Type) where
  | nameError : String → ItemResult α ε
  | proxied : PyVal α ε → ItemResult α ε
  | raw : PyVal α ε → ItemResult α ε

/-- `ReconnectProxy.__getitem__(self, key)`: `item = self.conn[key]`;
if `item` is invocable the code evaluates `MongoProxy(item)`, which first
resolves the global name `MongoProxy` (not a builtin) and raises
`NameError` when the module does not define it; otherwise the raw item is
returned.  `none` models the underlying `self.conn[key]` lookup failing. -/
def ReconnectProxy.getitem (conn : Conn γ α ε) (key : String) :
    Option (ItemResult α ε) :=
  match List.lookup key conn.items with
  | none => none
  | some item =>
    if isCallable item then
      if module_globals.contains "MongoProxy" then some (.proxied item)
      else some (.nameError "MongoProxy")
    else some (.raw item)

/-- `ReconnectProxy.__call__(self, *args, **kwargs)`:
`return self.conn(*args, **kwargs)` — one direct invocation of `U` with
the same arguments, no retry loop, no warning, no sleep. -/
def ReconnectProxy.call (conn : Conn γ α ε) (args : γ) : CallTrace α ε :=
  ⟨conn.callF args, [0], [], []⟩

/-- `ReconnectProxy.__bool__(self)`: `return True`, whatever `self.conn`
is. -/
def ReconnectProxy.bool (_conn : Conn γ α ε) : Bool :=
  true

/-- The names the `Executable` class body itself defines: the instance
attribute `method` set by `__init__`, the five methods of the class
body, and `__doc__` from the class docstring. -/
def Executable.classBodyAttrNames : List String :=
  ["method", "__init__", "__call__", "__dir__", "__str__", "__repr__",
   "__doc__"]

/-- Names resolvable on any instance beyond its class body: the entries
the class machinery puts in the class dict (`__module__`, `__qualname__`,
the `__dict__` and `__weakref__` descriptors) and the members inherited
from `object`. -/
def objectAttrNames : List String :=
  ["__module__", "__qualname__", "__dict__", "__weakref__", "__class__",
   "__delattr__", "__eq__", "__format__", "__ge__", "__getattribute__",
   "__gt__", "__hash__", "__init_subclass__", "__le__", "__lt__", "__ne__",
   "__new__", "__reduce__", "__reduce_ex__", "__setattr__", "__sizeof__",
   "__subclasshook__"]

/-- Every name attribute lookup can resolve on an `Executable` instance:
its instance and class namespaces plus what `object` provides. -/
def Executable.resolvableAttrNames : List String :=
  Executable.classBodyAttrNames ++ objectAttrNames

/-- Attribute access on an `Executable` instance whose wrapped bound
method carries attributes named `_methodAttrNames`: resolution walks the
instance dict, the class dict and `object`, and the class defines no
`__getattr__` fallback, so the wrapped method is never consulted and any
name outside `Executable.resolvableAttrNames` raises `AttributeError`
(modelled as `none`). -/
def Executable.attrAccess (_methodAttrNames : List String) (key : String) :
    Option String :=
  if Executable.resolvableAttrNames.contains key then some key else none

/-- Models `n` successive attribute accesses to a classified operation
name, each followed by one invocation: access `j` constructs a fresh
`Executable` around the bound-method behaviour `ops j` of that moment
and invokes it once. -/
def invocationTraces (ops : Nat → Nat → Res α ε) (n : Nat) :
    List (CallTrace α ε) :=
  (List.range n).map fun j => Executable.call ⟨ops j⟩

/-- A concrete bound method returning 1. -/
def findMethod : Nat → Res Nat Unit := fun _ => .ok 1

/-- A concrete bound method returning 2. -/
def helperMethod : Nat → Res Nat Unit := fun _ => .ok 2

/-- A concrete underlying connection with a classified operation `find`,
an unclassified invocable `watch` and a plain attribute `address`. -/
def sampleConn : Conn Unit Nat Unit where
  attrs := [("find", .callable findMethod), ("watch", .callable helperMethod),
            ("address", .base 5)]
  items := [("coll", .callable findMethod)]
  callF := fun _ => .ok 0
  truthy := true

/-- A concrete underlying connection that is falsy in boolean context. -/
def falsyConn : Conn Unit Nat Unit where
  attrs := []
  items := []
  callF := fun _ => .ok 0
  truthy := false

/-- A mock root type exposing a public invocable `find`, a private
invocable `_internal` and a public plain attribute `address`. -/
def exampleRoot : List (String × PyVal Nat Unit) :=
  [("find", .callable findMethod), ("_internal", .callable helperMethod),
   ("address", .base 5)]

theorem match_lookup_eq_true (obj : List (String × PyVal α ε)) (s : String) :
    (match List.lookup s obj with
     | some v => isCallable v
     | none => false) = true ↔
    ∃ v, List.lookup s obj = some v ∧ isCallable v = true := by
  cases h : List.lookup s obj <;> simp [h]

/-- Claim C4: the invocable branch of `__getitem__` does not return a new
proxy — the module defines no global named `MongoProxy`, so on a key
whose underlying item is invocable the code raises `NameError` instead
of wrapping the item. -/
theorem C4_getitem_NameError :
    module_globals.contains "MongoProxy" = false ∧
    ReconnectProxy.getitem sampleConn "coll" =
      some (.nameError "MongoProxy") := by
  constructor
  · rfl
  · rfl

/-- Claim C5: attribute access through the proxy resolves the member on
`U`; an invocable whose name is in the Operation Set comes back wrapped
in an `Executable` bound to it, an invocable outside the Operation Set
comes back unchanged (identical to direct access on `U`), and a
non-invocable value comes back unchanged. -/
theorem C5_getattr_dispatch (methods : List String) (conn : Conn γ α ε)
    (key : String) :
    (∀ f, List.lookup key conn.attrs = some (.callable f) →
        key ∈ methods →
        ReconnectProxy.getattr methods conn key = some (.wrapped ⟨f⟩)) ∧
    (∀ f, List.lookup key conn.attrs = some (.callable f) →
        key ∉ methods →
        ReconnectProxy.getattr methods conn key = some (.raw (.callable f))) ∧
    (∀ v, List.lookup key conn.attrs = some (.base v) →
        ReconnectProxy.getattr methods conn key = some (.raw (.base v))) := by
  refine ⟨fun f h hm => ?_, fun f h hm => ?_, fun v h => ?_⟩
  · simp [ReconnectProxy.getattr, h, hm]
  · simp [ReconnectProxy.getattr, h, hm]
  · simp [ReconnectProxy.getattr, h]

theorem C5_getattr_dispatch_witness :
    ReconnectProxy.getattr ["find"] sampleConn "find" =
      some (.wrapped ⟨findMethod⟩) ∧
    ReconnectProxy.getattr ["find"] sampleConn "watch" =
      some (.raw (.callable helperMethod)) ∧
    ReconnectProxy.getattr ["find"] sampleConn "address" =
      some (.raw (.base 5)) :=
  ⟨(C5_getattr_dispatch ["find"] sampleConn "find").1 findMethod rfl
      (by decide),
   (C5_getattr_dispatch ["find"] sampleConn "watch").2.1 helperMethod rfl
      (by decide),
   (C5_getattr_dispatch ["find"] sampleConn "address").2.2 5 rfl⟩

/-- Claim C6: `get_methods` returns, duplicate-free, exactly the union
over the given root objects of the names of members that do not begin
with an underscore and whose value is invocable; on a mock root with a
public invocable `find` and a private invocable `_internal` it keeps
`find` and drops `_internal`. -/
theorem C6_get_methods_spec (objs : List (List (String × PyVal α ε))) :
    (get_methods objs).Nodup ∧
    (∀ s, s ∈ get_methods objs ↔
      ∃ obj, obj ∈ objs ∧ s ∈ obj.map Prod.fst ∧
        startswith_underscore s = false ∧
        ∃ v, List.lookup s obj = some v ∧ isCallable v = true) ∧
    (get_methods [exampleRoot]).contains "find" = true ∧
    (get_methods [exampleRoot]).contains "_internal" = false := by
  refine ⟨List.nodup_dedup _, fun s => ?_, by decide, by decide⟩
  simp [get_methods, List.mem_flatMap, List.mem_filter,
    Bool.and_eq_true, Bool.not_eq_true', match_lookup_eq_true]

/-- Claim C7: the proxy evaluates as true in boolean context for every
wrapped object, in particular for one whose own truthiness is false. -/
theorem C7_bool_always_true :
    (∀ (γ α ε : Type) (conn : Conn γ α ε), ReconnectProxy.bool conn = true) ∧
    falsyConn.truthy = false ∧ ReconnectProxy.bool falsyConn = true :=
  ⟨fun _ _ _ _ => rfl, rfl, rfl⟩

/-- Claim C8: invoking the proxy itself forwards directly to the
underlying object with the same arguments and returns exactly what that
invocation returns (or raises), in a single attempt with no warning and
no sleep. -/
theorem C8_proxy_call_passthrough (conn : Conn γ α ε) (args : γ) :
    (ReconnectProxy.call conn args).result = conn.callF args ∧
    (ReconnectProxy.call conn args).attempts = [0] ∧
    (ReconnectProxy.call conn args).warnings = [] ∧
    (ReconnectProxy.call conn args).sleeps = [] :=
  ⟨rfl, rfl, rfl, rfl⟩

/-- Claim C9: in a sequence of accesses-then-invocations of wrapped
operations, the j-th invocation is exactly one fresh retry loop starting
at attempt 0 over its own operation behaviour, and its trace is
unchanged if the behaviour at every other invocation index is replaced
arbitrarily. -/
theorem C9_fresh_retry_loops (ops ops' : Nat → Nat → Res α ε) (n j : Nat)
    (hj : j < n) (h : ops j = ops' j) :
    (invocationTraces ops n)[j]? = some (safeLoop (ops j) 0 4) ∧
    (invocationTraces ops n)[j]? = (invocationTraces ops' n)[j]? := by
  have e1 : (invocationTraces ops n)[j]? = some (safeLoop (ops j) 0 4) := by
    simp [invocationTraces, List.getElem?_map, List.getElem?_range hj,
      Executable.call, safe_mongocall]
  have e2 : (invocationTraces ops' n)[j]? = some (safeLoop (ops' j) 0 4) := by
    simp [invocationTraces, List.getElem?_map, List.getElem?_range hj,
      Executable.call, safe_mongocall]
  exact ⟨e1, by rw [e1, e2, h]⟩

/-- A family of operation behaviours: invocation `j` succeeds at once
with value `j`. -/
def constOkOps : Nat → Nat → Res Nat Unit := fun j _ => .ok j

theorem C9_fresh_retry_loops_witness :
    (invocationTraces constOkOps 2)[1]? = some (safeLoop (constOkOps 1) 0 4) ∧
    (invocationTraces constOkOps 2)[1]? = (invocationTraces constOkOps 2)[1]? :=
  C9_fresh_retry_loops constOkOps constOkOps 2 1 (by norm_num) rfl

/-- Claim C10, counterexample to the claim as stated: `__class__` is not
among the names the `Executable` class body defines itself, yet
attribute access resolves it (through `object`) instead of raising
`AttributeError`. -/
theorem C10_claim_counterexample :
    "__class__" ∉ Executable.classBodyAttrNames ∧
    Executable.attrAccess ["__name__"] "__class__" = some "__class__" := by
  exact ⟨by decide, rfl⟩

/-- Claim C10 as amended: an `Executable` is not a transparent stand-in
for the method it wraps.  Attribute access resolves only the names its
own class body and the standard instance machinery inherited from
`object` provide; every other name — in particular any attribute carried
by the wrapped bound method, such as `__name__` or `__func__` — raises
`AttributeError` rather than delegating to the underlying method,
whatever attributes that method carries. -/
theorem C10_executable_not_transparent (methodAttrNames : List String)
    (key : String) (hkey : key ∉ Executable.resolvableAttrNames) :
    Executable.attrAccess methodAttrNames key = none := by
  simp [Executable.attrAccess, hkey]

theorem C10_executable_not_transparent_witness :
    Executable.attrAccess ["__name__"] "__name__" = none :=
  C10_executable_not_transparent ["__name__"] "__name__" (by decide)

end MongoReconnect
